import Mathlib

/-!
Verification of the `ImageClassifier` class of `src/src/ImageClassifier/index.js`
(ml5-library). The JavaScript code is shallowly embedded: images and tensors
become explicit structures over `ℚ`, the mutable fields of the classifier become a
`ClState` record, and each method becomes a state-passing function. External
collaborators that are out of scope for the repository (the mobilenet network,
tfjs tensor ops, the IMAGENET class table) are modelled from the spec where
noted in doc comments.
-/

namespace ML5

/-- A raw pixel buffer: height, width, and a (total) pixel function
`pix y x c` giving the value of channel `c` at row `y`, column `x`.
Channel count is 3 (RGB) per the data model; values out of range are
unconstrained but total. -/
structure Image where
  height : ℕ
  width : ℕ
  pix : ℕ → ℕ → ℕ → ℚ

/-- A rank-4 tensor `[n, h, w, c]` as produced by the preprocessing pipeline
(`expandDims(0)` / `reshape([1, size, size, 3])`). `val b y x c` is the value
at batch `b`, row `y`, column `x`, channel `c`. -/
@[ext]
structure Tensor4 where
  n : ℕ
  h : ℕ
  w : ℕ
  c : ℕ
  val : ℕ → ℕ → ℕ → ℕ → ℚ

/-- Static Method `cropImage` (index.js lines 211-218):
`size = Math.min(img.shape[0], img.shape[1])`,
`beginHeight = img.shape[0]/2 - size/2`, `beginWidth = img.shape[1]/2 - size/2`,
then `img.slice([beginHeight, beginWidth, 0], [size, size, 3])`.
The begin offsets are computed with JavaScript real division and handed to
`tf.slice`; we read the cropped pixel at the floored offset. -/
def cropImage (img : Image) : Image :=
  let size := min img.height img.width
  let beginHeight : ℚ := (img.height : ℚ) / 2 - (size : ℚ) / 2
  let beginWidth : ℚ := (img.width : ℚ) / 2 - (size : ℚ) / 2
  { height := size
    width := size
    pix := fun y x c => img.pix (beginHeight.floor.toNat + y) (beginWidth.floor.toNat + x) c }

/-- Static Method `imgToTensor` (index.js lines 221-228):
`tf.fromPixels(input)` → `cropImage` → `expandDims(0)` →
`.toFloat().div(tf.scalar(127)).sub(tf.scalar(1))`.
Note the order: the batch dimension is added first, then every entry is
normalized by `x/127 - 1`. No resize occurs in this function. -/
def imgToTensor (img : Image) : Tensor4 :=
  let cropped := cropImage img
  { n := 1
    h := cropped.height
    w := cropped.width
    c := 3
    val := fun _ y x c => cropped.pix y x c / 127 - 1 }

/-- Modelled from the spec: `tf.image.resizeBilinear` (a tfjs op, not part of
this repository) — "resize to the fixed network input size (224×224 in the
reference configuration) using a bilinear filter" (§4.1). Standard bilinear
interpolation with align-corners off: source coordinate `y * inH/outH`,
interpolating the four surrounding pixels. -/
def resizeBilinear (img : Image) (newH newW : ℕ) : Image :=
  { height := newH
    width := newW
    pix := fun y x c =>
      let scaleH : ℚ := (img.height : ℚ) / newH
      let scaleW : ℚ := (img.width : ℚ) / newW
      let srcY : ℚ := (y : ℚ) * scaleH
      let srcX : ℚ := (x : ℚ) * scaleW
      let y0 : ℕ := srcY.floor.toNat
      let x0 : ℕ := srcX.floor.toNat
      let y1 : ℕ := min (y0 + 1) (img.height - 1)
      let x1 : ℕ := min (x0 + 1) (img.width - 1)
      let dy : ℚ := srcY - y0
      let dx : ℚ := srcX - x0
      (1 - dy) * ((1 - dx) * img.pix y0 x0 c + dx * img.pix y0 x1 c) +
        dy * ((1 - dx) * img.pix y1 x0 c + dx * img.pix y1 x1 c) }

/-- The inference-path preprocessing inlined in `predict` (index.js lines
168-173): `tf.fromPixels(imgToPredict).toFloat()` →
`tf.image.resizeBilinear(pixels, [imageSize, imageSize])` →
`.sub(offset).div(offset)` with `offset = tf.scalar(127.5)` →
`.reshape([1, imageSize, imageSize, 3])`. Note: no crop, and the
normalization is `(x - 127.5)/127.5`, unlike `imgToTensor`. -/
def predictPreprocess (size : ℕ) (img : Image) : Tensor4 :=
  let resized := resizeBilinear img size size
  { n := 1
    h := size
    w := size
    c := 3
    val := fun _ y x c => (resized.pix y x c - 255 / 2) / (255 / 2) }

/-- A constant image: every pixel of every channel holds `v`. -/
def sampleImage (h w : ℕ) (v : ℚ) : Image :=
  { height := h, width := w, pix := fun _ _ _ => v }

/-- The comparator of `getTopKClasses` (index.js line 189):
`valuesAndIndices.sort((a, b) => b.value - a.value)` orders pairs by
non-increasing probability value. ECMAScript `Array.prototype.sort` is a
stable sort, embedded below by `List.insertionSort` with this relation. -/
def descVal (a b : ℕ × ℚ) : Prop := b.2 ≤ a.2

instance : DecidableRel descVal := fun a b => inferInstanceAs (Decidable (b.2 ≤ a.2))

/-- The loop of index.js lines 186-188: pair every probability with its class
index, in ascending index order. An element of the list is `(index, value)`. -/
def valuesAndIndices (values : List ℚ) : List (ℕ × ℚ) := values.enum

/-- The sorted working array of `getTopKClasses` after line 189. -/
def sortedVI (values : List ℚ) : List (ℕ × ℚ) :=
  List.insertionSort descVal (valuesAndIndices values)

/-- `getTopKClasses` (index.js lines 183-208). The output entry for a class is
`(class index, probability)`; in the source the index is additionally mapped
through the static `IMAGENET_CLASSES` table to obtain `className`.
The copy loop at lines 193-196 reads `valuesAndIndices[i]` for every
`i < topK`; when `topK` exceeds the number of values this dereferences
`undefined` and the call fails, modelled as `none`. -/
def getTopKClasses (values : List ℚ) (topK : ℕ) : Option (List (ℕ × ℚ)) :=
  if topK ≤ values.length then some ((sortedVI values).take topK) else none

/-- The strengthened ordering that the stable descending sort produces when
the input carries strictly ascending indices: values are non-increasing and
ties are broken by ascending original index. -/
def lexGood (a b : ℕ × ℚ) : Prop := b.2 < a.2 ∨ (a.2 = b.2 ∧ a.1 < b.1)

/-- Modelled from the spec: `IMAGENET_CLASSES` (imported from
`src/utils/IMAGENET_CLASSES`, not under `src/`) is "an ordered sequence of
1000 class name strings, indexed 0..999, fixed at build time" (§6). Only its
size is relevant to the claims. -/
def vocabSize : ℕ := 1000

/-- The `DEFAULTS` table (index.js lines 15-21). -/
structure DefaultCfg where
  learningRate : ℚ
  hiddenUnits : ℕ
  epochs : ℕ
  numClasses : ℕ
  batchSize : ℚ

def DEFAULTS : DefaultCfg :=
  { learningRate := 1 / 10000
    hiddenUnits := 100
    epochs := 20
    numClasses := 2
    batchSize := 2 / 5 }

/-- JavaScript `options.x || DEFAULTS.x` for a numeric option: an absent
value or a supplied falsy value (0) selects the default. -/
def jsOrNat (v : Option ℕ) (d : ℕ) : ℕ :=
  match v with
  | some n => if n = 0 then d else n
  | none => d

/-- JavaScript `||` defaulting for a rational-valued option. -/
def jsOrQ (v : Option ℚ) (d : ℚ) : ℚ :=
  match v with
  | some q => if q = 0 then d else q
  | none => d

/-- The recognized keys of the `options` object of the constructor; `none` means
the key is absent. -/
structure OptionsJS where
  learningRate : Option ℚ
  hiddenUnits : Option ℕ
  epochs : Option ℕ
  numClasses : Option ℕ
  batchSize : Option ℚ

/-- The classifier head held in `this.customModel`. The tfjs layer objects
are external; we record the architecture parameters (index.js lines 109-125)
and whether `fit` has run (Modelled from the spec: `ClassifierHead` is "a
trainable function parameterized by weights", replaced wholesale by `train`). -/
structure HeadModel where
  hiddenUnits : ℕ
  numClasses : ℕ
  fitted : Bool

/-- Trace of user-observable callback activity, used to state the queueing
claims: `ran img k` records one execution of the loaded predict path for
input `img` with top-K count `k`; `readyCb` records the construction
callback run (index.js line 51). -/
inductive Action where
  | ran (img : Option Image) (k : ℕ)
  | readyCb

def isReadyCb : Action → Bool := fun a =>
  match a with
  | .readyCb => true
  | _ => false

/-- The mutable fields of an `ImageClassifier` instance (index.js lines
24-42), plus the ghost field `log` recording executed predictions and the
ready callback for the temporal claims. The two network functions stand for
`this.mobilenet` (the full loaded model) and `this.mobilenetModified` (the
model truncated at `conv_pw_13_relu`); both are external collaborators
(Modelled from the spec: `embed(image) -> Tensor`, opaque), represented as
functions from the preprocessed tensor to its output vector. Before the
load completes they are JavaScript `null`, here the constant `[]`. -/
@[ext]
structure ClState where
  mobilenet : Tensor4 → List ℚ
  mobilenetModified : Tensor4 → List ℚ
  imageSize : ℕ
  topKPredictions : ℕ
  modelLoaded : Bool
  video : Option Image
  waitingPredictions : List (Option Image × ℕ)
  hasAnyTrainedClass : Bool
  customModel : Option HeadModel
  epochs : ℕ
  hiddenUnits : ℕ
  numClasses : ℕ
  learningRate : ℚ
  batchSize : ℚ
  isPredicting : Bool
  xs : Option (List (List ℚ))
  ys : Option (List (List ℚ))
  log : List Action

/-- Modelled from the spec: `processVideo` (from `src/utils/imageUtilities`,
not under `src/`) — "video/image frame acquisition and resizing to a capture
device (treated as a source of raw pixel buffers)"; it resamples the source
to `size × size`. -/
def processVideo (v : Image) (size : ℕ) : Image := resizeBilinear v size size

/-- The constructor (index.js lines 24-53) up to, but not including, the
asynchronous load: every field is initialized, each recognized option is
defaulted with `||`, and a supplied video source is processed to
`imageSize × imageSize`. -/
def buildState (video : Option Image) (opts : OptionsJS) : ClState :=
  { mobilenet := fun _ => []
    mobilenetModified := fun _ => []
    imageSize := 224
    topKPredictions := 10
    modelLoaded := false
    video := video.map (fun v => processVideo v 224)
    waitingPredictions := []
    hasAnyTrainedClass := false
    customModel := none
    epochs := jsOrNat opts.epochs DEFAULTS.epochs
    hiddenUnits := jsOrNat opts.hiddenUnits DEFAULTS.hiddenUnits
    numClasses := jsOrNat opts.numClasses DEFAULTS.numClasses
    learningRate := jsOrQ opts.learningRate DEFAULTS.learningRate
    batchSize := jsOrQ opts.batchSize DEFAULTS.batchSize
    isPredicting := false
    xs := none
    ys := none
    log := [] }

/-- The probability vector computed by the loaded branch of `predict`
(index.js lines 168-175): the inference preprocessing followed by
`this.mobilenet.predict(batched)` — the FULL untruncated network, with no
reference to `this.customModel`. -/
def predictVector (st : ClState) (img : Image) : List ℚ :=
  st.mobilenet (predictPreprocess st.imageSize img)

/-- The body of `predict` after argument parsing (index.js lines 165-179):
`imgToPredict` is the resolved input (possibly `null`), `numberOfClasses` the
resolved numeric argument (`undefined` for image/video-first calls). Before
the model is loaded the call is pushed onto `waitingPredictions` with
`num: numberOfClasses || this.topKPredictions`; afterwards it runs
`getTopKClasses` on `predictVector`, recorded in the ghost log. -/
def predictCore (st : ClState) (imgToPredict : Option Image) (numberOfClasses : Option ℕ) :
    ClState :=
  if st.modelLoaded = false then
    { st with waitingPredictions :=
        st.waitingPredictions ++ [(imgToPredict, jsOrNat numberOfClasses st.topKPredictions)] }
  else
    { st with log := st.log ++ [Action.ran imgToPredict (jsOrNat numberOfClasses st.topKPredictions)] }

/-- The ranked result delivered by a loaded `predict` call (index.js line
177): `getTopKClasses(logits, numberOfClasses || this.topKPredictions)`. -/
def predictResult (st : ClState) (img : Image) (numberOfClasses : Option ℕ) :
    Option (List (ℕ × ℚ)) :=
  getTopKClasses (predictVector st img) (jsOrNat numberOfClasses st.topKPredictions)

/-- `predict(img, k?, cb)` with an image first argument (index.js lines
152-153): `imgToPredict = inputOrNum` and `numberOfClasses` is never
assigned, so any supplied count is ignored. -/
def predictWithImage (st : ClState) (img : Image) : ClState :=
  predictCore st (some img) none

/-- `predict(n, cb)` with a numeric first argument (index.js lines 159-162):
`imgToPredict = this.video` and `numberOfClasses = inputOrNum`. -/
def predictWithNum (st : ClState) (n : ℕ) : ClState :=
  predictCore st st.video (some n)

/-- One step of the replay loop (index.js line 50):
`this.predict(i.imgToPredict, i.num, i.callback)`. Argument parsing routes a
stored image through the image-first branch (dropping `i.num`, since
`numberOfClasses` stays undefined); a `null` stored input falls into the
else-branch and reads `this.video`. -/
def replayEntry (s : ClState) (e : Option Image × ℕ) : ClState :=
  match e.1 with
  | some i => predictCore s (some i) none
  | none => predictCore s s.video none

/-- Completion of `loadModel` (index.js lines 47-52 and 55-64): the truncated
and full networks are installed, `modelLoaded` is set, every waiting
prediction is replayed in order with `forEach`, and then the construction
callback runs. -/
def loadComplete (st : ClState) (netFull netTrunc : Tensor4 → List ℚ) : ClState :=
  let st1 := { st with modelLoaded := true, mobilenet := netFull, mobilenetModified := netTrunc }
  let st2 := st1.waitingPredictions.foldl replayEntry st1
  { st2 with log := st2.log ++ [Action.readyCb] }

/-- `tf.oneHot(tf.tensor1d([label]), this.numClasses)` (index.js line 80):
a row of width `numClasses` with a 1 at `label` (all zeros when the label is
out of range, as in TF). -/
def oneHot (label : ℕ) (numClasses : ℕ) : List ℚ :=
  (List.range numClasses).map (fun i => if i = label then 1 else 0)

/-- The body of the `tf.tidy` in `addImage` (index.js lines 69-95) for a
resolved input image: preprocess with `imgToTensor`, embed with
`this.mobilenetModified`, one-hot the label, then either install the first
dataset row (when `this.xs == null`, also setting `hasAnyTrainedClass`) or
concatenate one new row onto `xs` and `ys`. -/
def addImageGo (st : ClState) (label : ℕ) (theImage : Image) : ClState :=
  let processedImg := imgToTensor theImage
  let prediction := st.mobilenetModified processedImg
  let y := oneHot label st.numClasses
  match st.xs with
  | none =>
    { st with xs := some [prediction], ys := some [y], hasAnyTrainedClass := true }
  | some oldX =>
    { st with xs := some (oldX ++ [prediction]), ys := some (st.ys.getD [] ++ [y]) }

/-- `addImage` (index.js lines 67-99). Guarded by `modelLoaded`; the explicit
input, or the live video when the input is `null`, is fed to the dataset
append (`addImageGo`). A `null` input with no live video has no defined
result in the source (`tf.fromPixels(null)`); the state is returned
unchanged. -/
def addImage (st : ClState) (label : ℕ) (input : Option Image) : ClState :=
  if st.modelLoaded then
    match input, st.video with
    | none, none => st
    | some i, _ => addImageGo st label i
    | none, some v => addImageGo st label v
  else st

/-- Number of rows of `this.xs` (`this.xs.shape[0]`); 0 when still `null`. -/
def xsRows (st : ClState) : ℕ := (st.xs.getD []).length

/-- Number of rows of `this.ys`; 0 when still `null`. -/
def ysRows (st : ClState) : ℕ := (st.ys.getD []).length

/-- `const batchSize = Math.floor(this.xs.shape[0] * this.batchSize)`
(index.js line 129). -/
def computedBatchSize (st : ClState) : ℤ := ⌊(xsRows st : ℚ) * st.batchSize⌋

/-- `train` (index.js lines 102-144), returning the post-call state together
with the thrown error message, if any. With no examples it throws before any
mutation. Otherwise `isPredicting` is cleared, `this.customModel` is replaced
by the freshly built (unfitted) head, and the derived batch size is checked;
when positive, `fit` runs (Modelled from the spec: `ClassifierHead.fit`
produces the trained head that "atomically replaces any previously trained
head", here recorded by `fitted := true`). -/
def train (st : ClState) : ClState × Option String :=
  if st.hasAnyTrainedClass = false then
    (st, some "Add some examples before training!")
  else
    let freshHead : HeadModel :=
      { hiddenUnits := st.hiddenUnits, numClasses := st.numClasses, fitted := false }
    let st1 := { st with isPredicting := false, customModel := some freshHead }
    if computedBatchSize st1 ≤ 0 then
      (st1, some "Batch size is 0 or NaN. Please choose a non-zero fraction.")
    else
      ({ st1 with customModel := some { freshHead with fitted := true } }, none)

/-- A prediction request submitted by a caller: `predict(img, k?, cb)` with
an explicit image (any supplied `k` is recorded to show it is ignored by the
parsing), or `predict(n, cb)` with a count against the live video. -/
inductive Req where
  | image (img : Image) (k : Option ℕ)
  | num (n : ℕ)

def applyReq (s : ClState) (r : Req) : ClState :=
  match r with
  | .image i _ => predictWithImage s i
  | .num n => predictWithNum s n

def runReqs (s : ClState) (rs : List Req) : ClState := rs.foldl applyReq s

/-- The resolved input of a request, given the live video source. -/
def reqImg (video : Option Image) (r : Req) : Option Image :=
  match r with
  | .image i _ => some i
  | .num _ => video

/-- The top-K count a request actually runs with once loaded: image-first
calls always use `topKPredictions`; numeric calls use `n || topKPredictions`. -/
def reqK (topK : ℕ) (r : Req) : ℕ :=
  match r with
  | .image _ _ => topK
  | .num n => jsOrNat (some n) topK

/-- The `PredictionQueueEntry` pushed for a pre-load request. -/
def entryOf (video : Option Image) (topK : ℕ) (r : Req) : Option Image × ℕ :=
  (reqImg video r, reqK topK r)

/-- The input a replayed queue entry resolves to: its stored input, or the
live video when the stored input was `null`. -/
def replayImg (video : Option Image) (e : Option Image × ℕ) : Option Image :=
  match e.1 with
  | some i => some i
  | none => video

/-- The log entries produced by replaying a list of queued requests: every
replay executes with count `topK`, since the stored count is dropped by the
argument parsing of the replaying `predict` call. -/
def requestsReplayed (video : Option Image) (topK : ℕ) (rs : List Req) : List Action :=
  rs.map (fun r => Action.ran (reqImg video r) topK)

/-- The log entries produced by running a list of requests on a loaded
classifier. -/
def loadedActions (video : Option Image) (topK : ℕ) (rs : List Req) : List Action :=
  rs.map (fun r => Action.ran (reqImg video r) (reqK topK r))

/-- The log entries produced by replaying a list of queue entries: every
replay runs with the default count `topK`, because argument parsing never
assigns `numberOfClasses` for an image-valued first argument. -/
def replayActions (video : Option Image) (topK : ℕ) (es : List (Option Image × ℕ)) : List Action :=
  es.map (fun e => Action.ran (replayImg video e) topK)

/-- A sequence of `addImage` calls, each with an explicit input image. -/
def runAdds (s : ClState) (items : List (ℕ × Image)) : ClState :=
  items.foldl (fun t p => addImage t p.1 (some p.2)) s

/-- An options object with every key absent. -/
def optsNone : OptionsJS :=
  { learningRate := none, hiddenUnits := none, epochs := none, numClasses := none,
    batchSize := none }

/-- An options object supplying the falsy value 0 for every recognized key. -/
def optsZero : OptionsJS :=
  { learningRate := some 0, hiddenUnits := some 0, epochs := some 0, numClasses := some 0,
    batchSize := some 0 }

/-- Modelled from the spec: a concrete stand-in for the loaded full mobilenet,
whose output is a probability vector over the 1000-name label vocabulary
(§6: "an ordered sequence of 1000 class name strings"). -/
def mobilenetSample : Tensor4 → List ℚ := fun _ => List.replicate vocabSize (1 / 1000)

/-- Modelled from the spec: a concrete stand-in for the truncated network
(`embed`), producing a fixed embedding row. -/
def embedSample : Tensor4 → List ℚ := fun _ => [1, 0]

/-- A freshly constructed classifier whose load has completed with the sample
networks and with nothing trained. -/
def stReady : ClState :=
  { buildState none optsNone with
      modelLoaded := true, mobilenet := mobilenetSample, mobilenetModified := embedSample }

/-- A loaded classifier on which `train` has succeeded: two dataset rows, the
trained-class flag set, and a fitted two-class head installed. -/
def stTrained : ClState :=
  { stReady with
      hasAnyTrainedClass := true,
      customModel := some { hiddenUnits := 100, numClasses := 2, fitted := true },
      xs := some [[1, 0], [0, 1]],
      ys := some [[1, 0], [0, 1]] }

/-- A loaded classifier carrying a previously trained head but an empty
dataset (e.g. after construction the head was restored externally); used to
exhibit that the empty-dataset `train` error leaves the head in place. -/
def stEmptyWithHead : ClState :=
  { stReady with customModel := some { hiddenUnits := 100, numClasses := 2, fitted := true } }

/-- A loaded classifier with exactly one dataset row. -/
def stOneRow : ClState :=
  { stReady with hasAnyTrainedClass := true, xs := some [[1, 0]], ys := some [[1, 0]] }

/-- A loaded classifier with exactly ten dataset rows. -/
def stTenRows : ClState :=
  { stReady with
      hasAnyTrainedClass := true
      xs := some (List.replicate 10 [1, 0])
      ys := some (List.replicate 10 [1, 0]) }

theorem runReqs_notLoaded (rs : List Req) :
    ∀ s : ClState, s.modelLoaded = false →
      runReqs s rs = { s with waitingPredictions :=
        s.waitingPredictions ++ rs.map (entryOf s.video s.topKPredictions) } := by
  induction rs with
  | nil => intro s _; simp [runReqs]
  | cons r rest ih =>
    intro s h
    have happ : applyReq s r =
        { s with waitingPredictions :=
            s.waitingPredictions ++ [entryOf s.video s.topKPredictions r] } := by
      cases r <;>
        simp [applyReq, predictWithImage, predictWithNum, predictCore, h, entryOf,
          reqImg, reqK, jsOrNat]
    have hstep : runReqs s (r :: rest) = runReqs (applyReq s r) rest := by
      simp [runReqs]
    rw [hstep, happ, ih _ (by simpa using h)]
    simp

theorem runReqs_loaded (rs : List Req) :
    ∀ s : ClState, s.modelLoaded = true →
      runReqs s rs = { s with log := s.log ++ loadedActions s.video s.topKPredictions rs } := by
  induction rs with
  | nil => intro s _; simp [runReqs, loadedActions]
  | cons r rest ih =>
    intro s h
    have happ : applyReq s r =
        { s with log := s.log ++ [Action.ran (reqImg s.video r) (reqK s.topKPredictions r)] } := by
      cases r <;>
        simp [applyReq, predictWithImage, predictWithNum, predictCore, h,
          reqImg, reqK, jsOrNat]
    have hstep : runReqs s (r :: rest) = runReqs (applyReq s r) rest := by
      simp [runReqs]
    rw [hstep, happ, ih _ (by simpa using h)]
    simp [loadedActions]

theorem replayFold (es : List (Option Image × ℕ)) :
    ∀ s : ClState, s.modelLoaded = true →
      es.foldl replayEntry s = { s with log := s.log ++ replayActions s.video s.topKPredictions es } := by
  induction es with
  | nil => intro s _; simp [replayActions]
  | cons e rest ih =>
    intro s h
    have happ : replayEntry s e =
        { s with log := s.log ++ [Action.ran (replayImg s.video e) s.topKPredictions] } := by
      rcases e with ⟨i, k⟩
      cases i <;> simp [replayEntry, predictCore, h, replayImg, jsOrNat]
    rw [List.foldl_cons, happ, ih _ (by simpa using h)]
    simp [replayActions]

theorem replayImg_entryOf (v : Option Image) (topK : ℕ) (r : Req) :
    replayImg v (entryOf v topK r) = reqImg v r := by
  cases r with
  | image i k => rfl
  | num n => cases v <;> rfl

theorem addImage_none_branch (s : ClState) (label : ℕ) (img : Image)
    (hl : s.modelLoaded = true) (hxs : s.xs = none) :
    addImage s label (some img) = { s with
      xs := some [s.mobilenetModified (imgToTensor img)],
      ys := some [oneHot label s.numClasses],
      hasAnyTrainedClass := true } := by
  simp [addImage, hl, addImageGo, hxs]

theorem addImage_some_branch (s : ClState) (label : ℕ) (img : Image) (a : List (List ℚ))
    (hl : s.modelLoaded = true) (hxs : s.xs = some a) :
    addImage s label (some img) = { s with
      xs := some (a ++ [s.mobilenetModified (imgToTensor img)]),
      ys := some (s.ys.getD [] ++ [oneHot label s.numClasses]) } := by
  simp [addImage, hl, addImageGo, hxs]

theorem runAdds_rows (items : List (ℕ × Image)) :
    ∀ (s : ClState) (a : List (List ℚ)), s.modelLoaded = true → s.xs = some a →
      xsRows (runAdds s items) = xsRows s + items.length ∧
      ysRows (runAdds s items) = ysRows s + items.length := by
  induction items with
  | nil => intro s a _ _; simp [runAdds]
  | cons p rest ih =>
    intro s a hl hxs
    have hstep : runAdds s (p :: rest) = runAdds (addImage s p.1 (some p.2)) rest := by
      simp [runAdds]
    have hbr := addImage_some_branch s p.1 p.2 a hl hxs
    obtain ⟨e1, e2⟩ := ih (addImage s p.1 (some p.2))
      (a ++ [s.mobilenetModified (imgToTensor p.2)]) (by rw [hbr]; exact hl) (by rw [hbr])
    constructor
    · rw [hstep, e1, hbr]
      simp [xsRows, hxs]
      omega
    · rw [hstep, e2, hbr]
      simp [ysRows]
      omega

theorem lexGood_descVal {a b : ℕ × ℚ} (h : lexGood a b) : descVal a b := by
  rcases h with h | ⟨h, _⟩
  · exact le_of_lt h
  · exact le_of_eq h.symm

theorem orderedInsert_lexGood (a : ℕ × ℚ) :
    ∀ s : List (ℕ × ℚ), s.Pairwise lexGood → (∀ b ∈ s, a.1 < b.1) →
      (List.orderedInsert descVal a s).Pairwise lexGood := by
  intro s
  induction s with
  | nil => intro _ _; simp [List.orderedInsert]
  | cons b t ih =>
    intro hs ha
    rw [List.orderedInsert]
    split_ifs with hr
    · refine List.Pairwise.cons ?_ hs
      intro x hx
      have hxa : x.2 ≤ a.2 := by
        rcases List.mem_cons.mp hx with hxb | hxt
        · subst hxb; exact hr
        · exact le_trans (lexGood_descVal (List.rel_of_pairwise_cons hs hxt)) hr
      rcases lt_or_eq_of_le hxa with hlt | heq
      · exact Or.inl hlt
      · exact Or.inr ⟨heq.symm, ha x hx⟩
    · refine List.Pairwise.cons ?_ (ih (List.Pairwise.of_cons hs) fun c hc => ha c (List.mem_cons_of_mem b hc))
      intro x hx
      rcases (List.mem_orderedInsert descVal).mp hx with hxa | hxt
      · subst hxa
        exact Or.inl (lt_of_not_ge hr)
      · exact List.rel_of_pairwise_cons hs hxt

theorem insertionSort_lexGood :
    ∀ l : List (ℕ × ℚ), l.Pairwise (fun a b => a.1 < b.1) →
      (List.insertionSort descVal l).Pairwise lexGood := by
  intro l
  induction l with
  | nil => intro _; simp
  | cons a t ih =>
    intro hl
    rw [List.insertionSort]
    refine orderedInsert_lexGood a _ (ih (List.Pairwise.of_cons hl)) ?_
    intro b hb
    exact List.rel_of_pairwise_cons hl ((List.mem_insertionSort descVal).mp hb)

theorem enumFrom_fst_lt (l : List ℚ) : ∀ n, ∀ b ∈ l.enumFrom n, n ≤ b.1 := by
  induction l with
  | nil => intro n b hb; simp [List.enumFrom] at hb
  | cons x t ih =>
    intro n b hb
    rw [List.enumFrom_cons] at hb
    rcases List.mem_cons.mp hb with hb | hb
    · subst hb; exact le_refl n
    · exact le_trans (Nat.le_succ n) (ih (n + 1) b hb)

theorem enumFrom_pairwise (l : List ℚ) :
    ∀ n, (l.enumFrom n).Pairwise (fun a b : ℕ × ℚ => a.1 < b.1) := by
  induction l with
  | nil => intro n; simp [List.enumFrom]
  | cons x t ih =>
    intro n
    rw [List.enumFrom_cons]
    exact List.Pairwise.cons (fun b hb => lt_of_lt_of_le (Nat.lt_succ_self n) (enumFrom_fst_lt t (n + 1) b hb)) (ih (n + 1))

theorem valuesAndIndices_pairwise (values : List ℚ) :
    (valuesAndIndices values).Pairwise (fun a b : ℕ × ℚ => a.1 < b.1) :=
  enumFrom_pairwise values 0

/-- The sorted working array is pairwise `lexGood`: non-increasing values,
ties by ascending class index. -/
theorem sortedVI_pairwise (values : List ℚ) : (sortedVI values).Pairwise lexGood :=
  insertionSort_lexGood (valuesAndIndices values) (valuesAndIndices_pairwise values)

theorem sortedVI_length (values : List ℚ) : (sortedVI values).length = values.length := by
  simp [sortedVI, valuesAndIndices, List.enum_length]

theorem resizeBilinear_const (img : Image) (newH newW : ℕ) (v : ℚ)
    (hc : ∀ y x c, img.pix y x c = v) :
    ∀ y x c, (resizeBilinear img newH newW).pix y x c = v := by
  intro y x c
  simp only [resizeBilinear, hc]
  ring

theorem cropImage_const (img : Image) (v : ℚ)
    (hc : ∀ y x c, img.pix y x c = v) :
    ∀ y x c, (cropImage img).pix y x c = v := by
  intro y x c
  simp [cropImage, hc]

/-- C6 (confirmed): `train` derives the mini-batch size as
`floor(datasetSize * batchFraction)`, with the fraction defaulting to 0.4
(= 2/5) when the constructor received no `batchSize` option, and throws
exactly when the floor is not positive: with one dataset row and fraction
2/5 the floor is 0 and `train` fails with the batch-size error, while with
ten rows the computed batch size is 4 and the batch check passes. -/
theorem train_batch_size (st1 st2 : ClState) (v : Option Image) (opts : OptionsJS)
    (h1f : st1.hasAnyTrainedClass = true) (h1r : xsRows st1 = 1) (h1b : st1.batchSize = 2 / 5)
    (h2f : st2.hasAnyTrainedClass = true) (h2r : xsRows st2 = 10) (h2b : st2.batchSize = 2 / 5)
    (hob : opts.batchSize = none) :
    (buildState v opts).batchSize = 2 / 5 ∧
    computedBatchSize st1 = 0 ∧
    (train st1).2 = some "Batch size is 0 or NaN. Please choose a non-zero fraction." ∧
    computedBatchSize st2 = 4 ∧
    (train st2).2 = none := by
  have hc1 : computedBatchSize st1 = 0 := by
    rw [computedBatchSize, h1r, h1b, Int.floor_eq_iff]
    · norm_num
  have hc2 : computedBatchSize st2 = 4 := by
    rw [computedBatchSize, h2r, h2b, Int.floor_eq_iff]
    · norm_num
  refine ⟨?_, hc1, ?_, hc2, ?_⟩
  · simp [buildState, hob, jsOrQ, DEFAULTS]
  · simp [train, h1f]
    rw [if_pos]
    exact le_of_eq hc1
  · simp [train, h2f]
    rw [if_neg]
    have h4 : (0 : ℤ) < computedBatchSize st2 := by rw [hc2]; norm_num
    exact not_le.mpr h4

theorem train_batch_size_witness :
    stOneRow.batchSize = 2 / 5 ∧
    ((buildState none optsNone).batchSize = 2 / 5 ∧
      computedBatchSize stOneRow = 0 ∧
      (train stOneRow).2 = some "Batch size is 0 or NaN. Please choose a non-zero fraction." ∧
      computedBatchSize stTenRows = 4 ∧
      (train stTenRows).2 = none) :=
  ⟨rfl, train_batch_size stOneRow stTenRows none optsNone rfl rfl rfl rfl (by decide) rfl rfl⟩

/-- C7 (confirmed): after `N` successful `addImage` calls on a loaded
classifier with a fresh dataset, `xs` and `ys` each hold exactly `N` rows,
and every single append on a non-empty dataset extends the previous rows by
concatenating exactly one new row, leaving the existing rows untouched. -/
theorem dataset_row_counts (st : ClState) (items : List (ℕ × Image))
    (hl : st.modelLoaded = true) (hxs : st.xs = none) (hys : st.ys = none) :
    (xsRows (runAdds st items) = items.length ∧ ysRows (runAdds st items) = items.length) ∧
    (∀ (s : ClState) (label : ℕ) (input : Image) (a : List (List ℚ)),
      s.modelLoaded = true → s.xs = some a →
      (addImage s label (some input)).xs = some (a ++ [s.mobilenetModified (imgToTensor input)]) ∧
      (addImage s label (some input)).ys = some (s.ys.getD [] ++ [oneHot label s.numClasses])) := by
  constructor
  · cases items with
    | nil => simp [runAdds, xsRows, ysRows, hxs, hys]
    | cons p rest =>
      have hstep : runAdds st (p :: rest) = runAdds (addImage st p.1 (some p.2)) rest := by
        simp [runAdds]
      have hbr := addImage_none_branch st p.1 p.2 hl hxs
      obtain ⟨e1, e2⟩ := runAdds_rows rest (addImage st p.1 (some p.2))
        [st.mobilenetModified (imgToTensor p.2)] (by rw [hbr]; exact hl) (by rw [hbr])
      constructor
      · rw [hstep, e1, hbr]
        simp [xsRows]
        omega
      · rw [hstep, e2, hbr]
        simp [ysRows]
        omega
  · intro s label input a hs hxs2
    rw [addImage_some_branch s label input a hs hxs2]
    exact ⟨rfl, rfl⟩

theorem dataset_row_counts_witness :
    stReady.modelLoaded = true ∧ stReady.xs = none ∧
    ((xsRows (runAdds stReady [(0, sampleImage 2 2 127), (1, sampleImage 2 2 0)]) = 2 ∧
      ysRows (runAdds stReady [(0, sampleImage 2 2 127), (1, sampleImage 2 2 0)]) = 2) ∧
     (∀ (s : ClState) (label : ℕ) (input : Image) (a : List (List ℚ)),
      s.modelLoaded = true → s.xs = some a →
      (addImage s label (some input)).xs = some (a ++ [s.mobilenetModified (imgToTensor input)]) ∧
      (addImage s label (some input)).ys = some (s.ys.getD [] ++ [oneHot label s.numClasses]))) :=
  ⟨rfl, rfl, dataset_row_counts stReady [(0, sampleImage 2 2 127), (1, sampleImage 2 2 0)] rfl rfl rfl⟩

/-- C8 (confirmed): `train` on a classifier with an empty dataset (no
examples added, `hasAnyTrainedClass` still false) throws
"Add some examples before training!" before any mutation, so the returned
state is exactly the input state and any previously trained head is
preserved. -/
theorem train_empty_dataset (st : ClState)
    (hflag : st.hasAnyTrainedClass = false) (hxs : st.xs = none) :
    train st = (st, some "Add some examples before training!") ∧
    (train st).1.customModel = st.customModel := by
  have h : train st = (st, some "Add some examples before training!") := by
    simp [train, hflag]
  exact ⟨h, by rw [h]⟩

theorem train_empty_dataset_witness :
    stEmptyWithHead.hasAnyTrainedClass = false ∧ stEmptyWithHead.xs = none ∧
    (train stEmptyWithHead = (stEmptyWithHead, some "Add some examples before training!") ∧
     (train stEmptyWithHead).1.customModel = stEmptyWithHead.customModel) :=
  ⟨rfl, rfl, train_empty_dataset stEmptyWithHead rfl rfl⟩

/-- C10 (confirmed): a recognized constructor option supplied with the falsy
value 0 silently falls back to the built-in default (`epochs` 20,
`hiddenUnits` 100, `numClasses` 2, `learningRate` 1e-4, `batchSize` 0.4),
because the constructor uses JavaScript `||` defaulting. -/
theorem zero_options_use_defaults (v : Option Image) (opts : OptionsJS)
    (he : opts.epochs = some 0) (hh : opts.hiddenUnits = some 0) (hn : opts.numClasses = some 0)
    (hlr : opts.learningRate = some 0) (hb : opts.batchSize = some 0) :
    (buildState v opts).epochs = 20 ∧ (buildState v opts).hiddenUnits = 100 ∧
    (buildState v opts).numClasses = 2 ∧ (buildState v opts).learningRate = 1 / 10000 ∧
    (buildState v opts).batchSize = 2 / 5 := by
  simp [buildState, he, hh, hn, hlr, hb, jsOrNat, jsOrQ, DEFAULTS]

theorem zero_options_use_defaults_witness :
    optsZero.numClasses = some 0 ∧
    ((buildState none optsZero).epochs = 20 ∧ (buildState none optsZero).hiddenUnits = 100 ∧
     (buildState none optsZero).numClasses = 2 ∧
     (buildState none optsZero).learningRate = 1 / 10000 ∧
     (buildState none optsZero).batchSize = 2 / 5) :=
  ⟨rfl, zero_options_use_defaults none optsZero rfl rfl rfl rfl rfl⟩

/-- C1 counterexample: on a loaded classifier that has a trained two-class
head installed (`hasAnyTrainedClass` set, fitted `customModel` present),
`predict` still produces the 1000-long vector of the full extractor, not a
vector of length `numClasses = 2` through the trained head: `predict` never
consults `customModel`. -/
theorem predict_trained_head_cx :
    stTrained.hasAnyTrainedClass = true ∧
    stTrained.customModel = some { hiddenUnits := 100, numClasses := 2, fitted := true } ∧
    stTrained.numClasses = 2 ∧
    (predictVector stTrained (sampleImage 2 2 127)).length = 1000 ∧
    (1000 : ℕ) ≠ 2 := by
  refine ⟨rfl, rfl, rfl, ?_, by decide⟩
  have h : predictVector stTrained (sampleImage 2 2 127) = List.replicate vocabSize (1 / 1000) :=
    rfl
  rw [h, List.length_replicate]
  rfl

/-- C1 (corrected): every loaded `predict` call routes the image through the
full untruncated network `this.mobilenet`, regardless of whether a head has
been trained — the probability vector is identical after installing any
trained head, and its length is always the label-vocabulary size (1000),
never `numClasses`. -/
theorem predict_always_full_net (st : ClState) (hm : HeadModel) (b : Bool) (img : Image)
    (hlen : ∀ t, (st.mobilenet t).length = vocabSize) :
    predictVector { st with customModel := some hm, hasAnyTrainedClass := b } img
      = predictVector st img ∧
    (predictVector st img).length = vocabSize :=
  ⟨rfl, hlen _⟩

theorem predict_always_full_net_witness :
    (∀ t, (stReady.mobilenet t).length = vocabSize) ∧
    (predictVector { stReady with customModel := some { hiddenUnits := 100, numClasses := 2, fitted := true }, hasAnyTrainedClass := true } (sampleImage 2 2 127) = predictVector stReady (sampleImage 2 2 127) ∧
     (predictVector stReady (sampleImage 2 2 127)).length = vocabSize) :=
  ⟨fun t => by simp [stReady, mobilenetSample],
   predict_always_full_net stReady { hiddenUnits := 100, numClasses := 2, fitted := true } true
     (sampleImage 2 2 127) (fun t => by simp [stReady, mobilenetSample])⟩

/-- C4 counterexample: with a two-entry probability vector and `k = 3`,
`getTopKClasses` fails (the copy loop dereferences `undefined`) instead of
clamping to a result of length `min(3, 2) = 2`. -/
theorem getTopK_no_clamp_cx : getTopKClasses [1, 2] 3 = none := by
  decide

/-- C4 (corrected): for `1 ≤ k ≤ vocabularySize` (the length of the
probability vector), `getTopKClasses` returns a sequence of length exactly
`k`, sorted by non-increasing probability; but for every `k` larger than the
vector length it fails rather than clamping to the vocabulary size. -/
theorem getTopK_length_sorted (values : List ℚ) (k : ℕ)
    (hk1 : 1 ≤ k) (hk2 : k ≤ values.length) :
    ∃ l, getTopKClasses values k = some l ∧ l.length = k ∧ l.Pairwise descVal ∧
      ∀ j, values.length < j → getTopKClasses values j = none := by
  refine ⟨(sortedVI values).take k, ?_, ?_, ?_, ?_⟩
  · simp [getTopKClasses, hk2]
  · rw [List.length_take, sortedVI_length]
    exact min_eq_left hk2
  · exact ((sortedVI_pairwise values).sublist (List.take_sublist k _)).imp lexGood_descVal
  · intro j hj
    simp [getTopKClasses, Nat.not_le.mpr hj]

theorem getTopK_length_sorted_witness :
    1 ≤ 2 ∧ 2 ≤ ([5, 3, 4] : List ℚ).length ∧
    (∃ l, getTopKClasses [5, 3, 4] 2 = some l ∧ l.length = 2 ∧ l.Pairwise descVal ∧
      ∀ j, ([5, 3, 4] : List ℚ).length < j → getTopKClasses [5, 3, 4] j = none) :=
  ⟨by decide, by decide, getTopK_length_sorted [5, 3, 4] 2 (by decide) (by decide)⟩

/-- C5 (confirmed): in any successful `getTopKClasses` output, two classes
with identical probability values appear in ascending class-index order —
the descending sort by probability is stable and the working array is built
in ascending index order. -/
theorem getTopK_tie_by_index (values : List ℚ) (k : ℕ) (l : List (ℕ × ℚ))
    (h : getTopKClasses values k = some l) :
    l.Pairwise (fun a b => a.2 = b.2 → a.1 < b.1) := by
  have hl : l = (sortedVI values).take k := by
    by_cases hk : k ≤ values.length
    · have := h
      rw [getTopKClasses, if_pos hk] at this
      exact (Option.some_injective _ this).symm
    · rw [getTopKClasses, if_neg hk] at h
      exact absurd h (by simp)
  subst hl
  refine ((sortedVI_pairwise values).sublist (List.take_sublist k _)).imp ?_
  intro a b hab heq
  rcases hab with hlt | ⟨_, hidx⟩
  · rw [heq] at hlt
    exact absurd hlt (lt_irrefl _)
  · exact hidx

theorem getTopK_tie_by_index_witness :
    getTopKClasses [5, 3, 5] 3 = some [(0, 5), (2, 5), (1, 3)] ∧
    List.Pairwise (fun a b : ℕ × ℚ => a.2 = b.2 → a.1 < b.1) [(0, 5), (2, 5), (1, 3)] :=
  ⟨by decide, getTopK_tie_by_index [5, 3, 5] 3 [(0, 5), (2, 5), (1, 3)] (by decide)⟩

theorem floor_half_sub (H S : ℕ) (hle : S ≤ H) (hdvd : 2 ∣ (H - S)) :
    ((H : ℚ) / 2 - (S : ℚ) / 2).floor.toNat = (H - S) / 2 := by
  obtain ⟨m, hm⟩ := hdvd
  have hH : H = S + 2 * m := by omega
  have hcast : (H : ℚ) / 2 - (S : ℚ) / 2 = (m : ℚ) := by
    rw [hH]
    push_cast
    ring
  rw [hcast]
  have hfl : ((m : ℚ)).floor = (m : ℤ) := by
    rw [Rat.floor_def']
    simp
  rw [hfl]
  simp
  omega

/-- C9 counterexample: on a 50×50 input, the tensor produced by
`imgToTensor` has spatial shape 50×50, not the claimed fixed 224×224 network
input size — `imgToTensor` performs no resize at all. -/
theorem imgToTensor_no_resize_cx :
    (imgToTensor (sampleImage 50 50 127)).h = 50 ∧
    (imgToTensor (sampleImage 50 50 127)).w = 50 ∧
    (50 : ℕ) ≠ 224 :=
  ⟨rfl, rfl, by decide⟩

/-- C9 (corrected): `imgToTensor` interprets the pixels as a 3-channel
tensor, center-crops to a square of side `S = min(height, width)` with crop
origin `((H-S)/2, (W-S)/2)` (stated for inputs with `H ≡ W (mod 2)`, where
the origin arithmetic is exact), then adds the leading batch dimension of
size 1, and finally normalizes every value by `x/127 - 1`; it performs no
resize to 224×224 and no bilinear filtering. -/
theorem imgToTensor_steps (img : Image) (hpar : 2 ∣ (img.height + img.width)) :
    (imgToTensor img).n = 1 ∧
    (imgToTensor img).h = min img.height img.width ∧
    (imgToTensor img).w = min img.height img.width ∧
    (imgToTensor img).c = 3 ∧
    ∀ b y x c, (imgToTensor img).val b y x c =
      img.pix ((img.height - min img.height img.width) / 2 + y)
        ((img.width - min img.height img.width) / 2 + x) c / 127 - 1 := by
  have hdH : 2 ∣ (img.height - min img.height img.width) := by
    rcases le_total img.height img.width with h | h
    · rw [min_eq_left h]
      omega
    · rw [min_eq_right h]
      omega
  have hdW : 2 ∣ (img.width - min img.height img.width) := by
    rcases le_total img.height img.width with h | h
    · rw [min_eq_left h]
      omega
    · rw [min_eq_right h]
      omega
  refine ⟨rfl, rfl, rfl, rfl, ?_⟩
  intro b y x c
  show (cropImage img).pix y x c / 127 - 1 = _
  rw [cropImage]
  simp only
  rw [floor_half_sub img.height (min img.height img.width) (min_le_left _ _) hdH,
    floor_half_sub img.width (min img.height img.width) (min_le_right _ _) hdW]

theorem imgToTensor_steps_witness :
    2 ∣ ((sampleImage 6 4 9).height + (sampleImage 6 4 9).width) ∧
    ((imgToTensor (sampleImage 6 4 9)).n = 1 ∧
     (imgToTensor (sampleImage 6 4 9)).h = min 6 4 ∧
     (imgToTensor (sampleImage 6 4 9)).w = min 6 4 ∧
     (imgToTensor (sampleImage 6 4 9)).c = 3 ∧
     ∀ b y x c, (imgToTensor (sampleImage 6 4 9)).val b y x c =
       (sampleImage 6 4 9).pix ((6 - min 6 4) / 2 + y) ((4 - min 6 4) / 2 + x) c / 127 - 1) :=
  ⟨by decide, imgToTensor_steps (sampleImage 6 4 9) (by decide)⟩

/-- C2 counterexample: for the constant 224×224 image with pixel value 127
— a size on which both the center-crop and the bilinear resize are the
identity — the training path (`imgToTensor`) feeds the extractor the value
`127/127 - 1 = 0` while the inference path (`predict`) feeds
`(127 - 127.5)/127.5 = -1/255`: the two preprocessing functions are not the
same function. -/
theorem preprocess_mismatch_cx :
    (imgToTensor (sampleImage 224 224 127)).val 0 0 0 0 = 0 ∧
    (predictPreprocess 224 (sampleImage 224 224 127)).val 0 0 0 0 = -(1 / 255) ∧
    ((0 : ℚ) ≠ -(1 / 255)) := by
  refine ⟨?_, ?_, by norm_num⟩
  · have h := cropImage_const (sampleImage 224 224 127) 127 (fun _ _ _ => rfl) 0 0 0
    show (cropImage (sampleImage 224 224 127)).pix 0 0 0 / 127 - 1 = 0
    rw [h]
    norm_num
  · have h := resizeBilinear_const (sampleImage 224 224 127) 224 224 127
      (fun _ _ _ => rfl) 0 0 0
    show ((resizeBilinear (sampleImage 224 224 127) 224 224).pix 0 0 0 - 255 / 2) / (255 / 2)
        = -(1 / 255)
    rw [h]
    norm_num

/-- C2 (corrected): the training path and the inference path apply different
preprocessing — `imgToTensor` center-crops (no resize) and normalizes by
`x/127 - 1`, while `predict` resizes bilinearly to 224×224 (no crop) and
normalizes by `(x - 127.5)/127.5`. Even on a constant 224×224 image, where
crop and resize are both the identity, the tensors fed to the extractor
agree if and only if the pixel value is 0. -/
theorem preprocess_paths_agree_iff_zero (v : ℚ) :
    imgToTensor (sampleImage 224 224 v) = predictPreprocess 224 (sampleImage 224 224 v) ↔
      v = 0 := by
  constructor
  · intro h
    have hv := congrArg (fun t => t.val 0 0 0 0) h
    simp only at hv
    have h1 : (imgToTensor (sampleImage 224 224 v)).val 0 0 0 0 = v / 127 - 1 := by
      show (cropImage (sampleImage 224 224 v)).pix 0 0 0 / 127 - 1 = v / 127 - 1
      rw [cropImage_const (sampleImage 224 224 v) v (fun _ _ _ => rfl) 0 0 0]
    have h2 : (predictPreprocess 224 (sampleImage 224 224 v)).val 0 0 0 0
        = (v - 255 / 2) / (255 / 2) := by
      show ((resizeBilinear (sampleImage 224 224 v) 224 224).pix 0 0 0 - 255 / 2) / (255 / 2)
          = (v - 255 / 2) / (255 / 2)
      rw [resizeBilinear_const (sampleImage 224 224 v) 224 224 v (fun _ _ _ => rfl) 0 0 0]
    rw [h1, h2] at hv
    have h255 : (255 : ℚ) / 2 ≠ 0 := by norm_num
    field_simp at hv
    linarith
  · intro hv
    subst hv
    have hcrop := cropImage_const (sampleImage 224 224 0) 0 (fun _ _ _ => rfl)
    have hres := resizeBilinear_const (sampleImage 224 224 0) 224 224 0 (fun _ _ _ => rfl)
    apply Tensor4.ext
    · rfl
    · rfl
    · rfl
    · rfl
    · funext b y x c
      show (cropImage (sampleImage 224 224 0)).pix y x c / 127 - 1 =
        ((resizeBilinear (sampleImage 224 224 0) 224 224).pix y x c - 255 / 2) / (255 / 2)
      rw [hcrop y x c, hres y x c]
      norm_num

theorem loadComplete_char (st : ClState) (netFull netTrunc : Tensor4 → List ℚ) :
    (loadComplete st netFull netTrunc).log =
      st.log ++ replayActions st.video st.topKPredictions st.waitingPredictions ++ [Action.readyCb] ∧
    (loadComplete st netFull netTrunc).modelLoaded = true ∧
    (loadComplete st netFull netTrunc).video = st.video ∧
    (loadComplete st netFull netTrunc).topKPredictions = st.topKPredictions := by
  have h := replayFold st.waitingPredictions
    { st with modelLoaded := true, mobilenet := netFull, mobilenetModified := netTrunc } rfl
  simp only [loadComplete]
  rw [h]
  simp

theorem replayActions_entryOf (v : Option Image) (t : ℕ) (rs : List Req) :
    replayActions v t (rs.map (entryOf v t)) = requestsReplayed v t rs := by
  rw [replayActions, requestsReplayed, List.map_map]
  refine List.map_congr_left ?_
  intro r _
  simp only [Function.comp_apply]
  rw [replayImg_entryOf]

theorem countP_requestsReplayed (v : Option Image) (t : ℕ) (rs : List Req) :
    List.countP isReadyCb (requestsReplayed v t rs) = 0 := by
  rw [List.countP_eq_zero]
  intro a ha
  rw [requestsReplayed, List.mem_map] at ha
  obtain ⟨r, _, hr⟩ := ha
  rw [← hr]
  simp [isReadyCb]

theorem countP_loadedActions (v : Option Image) (t : ℕ) (rs : List Req) :
    List.countP isReadyCb (loadedActions v t rs) = 0 := by
  rw [List.countP_eq_zero]
  intro a ha
  rw [loadedActions, List.mem_map] at ha
  obtain ⟨r, _, hr⟩ := ha
  rw [← hr]
  simp [isReadyCb]

/-- C3 (confirmed): every `predict` call issued before the model loads is
captured as a queue entry in submission order; when the load completes, all
queued entries are replayed through the full predict path in FIFO order
before any later-submitted request, and the construction callback runs
exactly once, after the queued predictions have been drained (its log entry
sits between the replayed queue and all later requests). -/
theorem predict_queue_replay (video : Option Image) (opts : OptionsJS)
    (netFull netTrunc : Tensor4 → List ℚ) (pres posts : List Req) :
    (runReqs (buildState video opts) pres).waitingPredictions
      = pres.map (entryOf (buildState video opts).video 10) ∧
    (runReqs (buildState video opts) pres).log = [] ∧
    (runReqs (loadComplete (runReqs (buildState video opts) pres) netFull netTrunc) posts).log
      = requestsReplayed (buildState video opts).video 10 pres ++ [Action.readyCb]
        ++ loadedActions (buildState video opts).video 10 posts ∧
    List.countP isReadyCb
      (runReqs (loadComplete (runReqs (buildState video opts) pres) netFull netTrunc) posts).log
      = 1 := by
  have hnl : (buildState video opts).modelLoaded = false := rfl
  have hwE : (buildState video opts).waitingPredictions = [] := rfl
  have hlE : (buildState video opts).log = [] := rfl
  have htk : (buildState video opts).topKPredictions = 10 := rfl
  have h1 := runReqs_notLoaded pres (buildState video opts) hnl
  have h1w : (runReqs (buildState video opts) pres).waitingPredictions
      = pres.map (entryOf (buildState video opts).video 10) := by
    rw [h1]
    simp [hwE, htk]
  have h1l : (runReqs (buildState video opts) pres).log = [] := by
    rw [h1]
    simp [hlE]
  have h1v : (runReqs (buildState video opts) pres).video = (buildState video opts).video := by
    rw [h1]
  have h1t : (runReqs (buildState video opts) pres).topKPredictions = 10 := by
    rw [h1]
    simp [htk]
  obtain ⟨hcl, hcm, hcv, hct⟩ :=
    loadComplete_char (runReqs (buildState video opts) pres) netFull netTrunc
  have h3 := runReqs_loaded posts
    (loadComplete (runReqs (buildState video opts) pres) netFull netTrunc) hcm
  have h3l : (runReqs (loadComplete (runReqs (buildState video opts) pres) netFull netTrunc)
      posts).log
      = requestsReplayed (buildState video opts).video 10 pres ++ [Action.readyCb]
        ++ loadedActions (buildState video opts).video 10 posts := by
    rw [h3]
    simp only [hcl, hcv, hct, h1w, h1l, h1v, h1t]
    rw [replayActions_entryOf]
    simp
  refine ⟨h1w, h1l, h3l, ?_⟩
  rw [h3l]
  simp [List.countP_append, countP_requestsReplayed, countP_loadedActions, isReadyCb]

end ML5
